import Mathlib

/-!
Verification of the stage-driven animation core of the AWG simulator
(`src/AwgSimulator.jsx`): the smoothed fluid-level channel, the stage
navigation handlers, the stage-to-visual target functions, and the bounded
particle-field tick.  JavaScript float arithmetic is modelled over the real
numbers; `Math.pow` with a real exponent is `Real.rpow`.
-/

namespace Awg

/-- Stage key of the air-intake step (`STEPS[0].key` in the source). -/
def stepAir : String := "air"

/-- Stage key of the condensation step (`STEPS[1].key`). -/
def stepCondensation : String := "condensation"

/-- Stage key of the filtration step (`STEPS[2].key`). -/
def stepFiltration : String := "filtration"

/-- Number of stages: `STEPS.length` in the source (6 entries). -/
def stageCount : ℤ := 6

/-- Manual previous-stage handler from the source:
`setStepIndex((i) => Math.max(0, i - 1))`. -/
def prevManual (i : ℤ) : ℤ := max 0 (i - 1)

/-- Manual next-stage handler from the source:
`setStepIndex((i) => Math.min(STEPS.length - 1, i + 1))`. -/
def nextManual (i : ℤ) : ℤ := min (stageCount - 1) (i + 1)

/-- Auto-advance handler from the source:
`setStepIndex((i) => (i + 1) % STEPS.length)`. -/
def autoNext (i : ℤ) : ℤ := (i + 1) % stageCount

/-- Error raised by the spec's `jumpTo` when the target index is invalid. -/
inductive JumpError where
  | outOfRange
deriving DecidableEq

/-- Modelled from the spec: the repository wires stage-dot clicks straight to
`setStepIndex(idx)` with indices drawn from the stage list itself, so the
validating `jumpTo` operation with `OutOfRangeError` described by the spec
has no body under `src/`.  Following the spec's words: reject an index
outside `[0, stageCount)` with the error and leave the current index
unchanged, otherwise move to the requested index. -/
def jumpTo (cur i : ℤ) : ℤ × Option JumpError :=
  if 0 ≤ i ∧ i < stageCount then (i, none) else (cur, some JumpError.outOfRange)

noncomputable section

/-- The source's `clamp01`: `Math.max(0, Math.min(1, v))`. -/
def clamp01 (v : ℝ) : ℝ := max 0 (min 1 v)

/-- Decay base of the fluid-level smoothing, the `0.001` in
`Math.pow(0.001, delta)`. -/
def smoothRate : ℝ := 0.001

/-- Fluid-level smoothing step from the source:
`scale.y += (target - scale.y) * (1 - Math.pow(0.001, delta))`. -/
def SmoothedChannel.advance (current target delta : ℝ) : ℝ :=
  current + (target - current) * (1 - smoothRate ^ delta)

/-- Condenser coil glow from the source:
`coilMat.emissiveIntensity = step === "condensation" ? 0.25 + cond * 0.85 : 0.08`
where `cond = clamp01(tempCondensation)`.  Assigned directly every frame,
with no smoothing. -/
def coilGlow (step : String) (tempCondensation : ℝ) : ℝ :=
  if step = stepCondensation then 0.25 + clamp01 tempCondensation * 0.85 else 0.08

/-- Base angular rate of the intake fan: `1.2 + flow * 10.0` where
`flow = clamp01(fluidFlow)`. -/
def fanBase (fluidFlow : ℝ) : ℝ := 1.2 + clamp01 fluidFlow * 10.0

/-- Stage multiplier of the intake fan: `step === "air" ? 1.0 : 0.20`. -/
def fanMult (step : String) : ℝ := if step = stepAir then 1.0 else 0.20

/-- Rotation rate of the intake fan per unit time:
`fanRef.current.rotation.z += base * mult * delta`. -/
def fanRate (step : String) (fluidFlow : ℝ) : ℝ := fanBase fluidFlow * fanMult step

/-- A 3-component vector: particle position, advection direction, or box
extents, mirroring the x/y/z slots of the `Float32Array` and
`THREE.Vector3`. -/
structure Vec3 where
  x : ℝ
  y : ℝ
  z : ℝ

/-- Static configuration of one `Particles` instance: full box extents,
normalized advection direction, base speed and swirl amplitude. -/
structure ParticleCfg where
  box : Vec3
  dir : Vec3
  speed : ℝ
  swirl : ℝ

/-- Direction set-up from the source: build the vector from the prop, replace
a zero-length vector by (1, 0, 0), then normalize. -/
def normalizeDir (d : Vec3) : Vec3 :=
  let d1 : Vec3 := if Real.sqrt (d.x ^ 2 + d.y ^ 2 + d.z ^ 2) = 0 then ⟨1, 0, 0⟩ else d
  let len := Real.sqrt (d1.x ^ 2 + d1.y ^ 2 + d1.z ^ 2)
  ⟨d1.x / len, d1.y / len, d1.z / len⟩

/-- Per-axis toroidal wrap from the source, keeping the two sequential `if`
statements: `if (pos > half) pos = -half; if (pos < -half) pos = half;`. -/
def wrapAxis (half c : ℝ) : ℝ :=
  let c1 := if c > half then -half else c
  if c1 < -half then half else c1

/-- Lateral swirl displacement of one particle for one frame, from the
source: zero unless `swirl > 0`, else `sin`/`cos` of
`phases[i] + t * (0.8 + swirl * 1.2)` scaled by `swirl * 0.02`, applied to
the y and z slots only.  Note it is not scaled by the frame delta. -/
def swirlOffset (cfg : ParticleCfg) (phase t : ℝ) : Vec3 :=
  if cfg.swirl > 0 then
    ⟨0, Real.sin (phase + t * (0.8 + cfg.swirl * 1.2)) * cfg.swirl * 0.02,
      Real.cos (phase + t * (0.8 + cfg.swirl * 1.2)) * cfg.swirl * 0.02⟩
  else ⟨0, 0, 0⟩

/-- One frame of the per-particle update from the source `useFrame` body:
advection `pos += dir * speed * delta`, then the swirl displacement, then the
per-axis toroidal wrap against half the box extents. -/
def particleStep (cfg : ParticleCfg) (phase t delta : ℝ) (pos : Vec3) : Vec3 :=
  let sw := swirlOffset cfg phase t
  let mx := pos.x + cfg.dir.x * cfg.speed * delta + sw.x
  let my := pos.y + cfg.dir.y * cfg.speed * delta + sw.y
  let mz := pos.z + cfg.dir.z * cfg.speed * delta + sw.z
  ⟨wrapAxis (cfg.box.x / 2) mx, wrapAxis (cfg.box.y / 2) my, wrapAxis (cfg.box.z / 2) mz⟩

/-- One `Particles` instance: the key of the stage that owns it (the `active`
prop is `step === key` at every call site), its static configuration, the
per-particle immutable phases and the mutable positions. -/
structure ParticleField where
  owner : String
  cfg : ParticleCfg
  phases : List ℝ
  positions : List Vec3

/-- One frame of a whole field, from the source: the body runs only when the
field is active (`if (!active || !points.current) return;`), in which case
every particle is stepped; otherwise the state is untouched. -/
def fieldTick (step : String) (t delta : ℝ) (f : ParticleField) : ParticleField :=
  if f.owner = step then
    { f with positions :=
        (f.positions.zip f.phases).map fun pp => particleStep f.cfg pp.2 t delta pp.1 }
  else f

/-- A sequence of frames, each with its own elapsed time and frame delta. -/
def fieldTicks (step : String) (ticks : List (ℝ × ℝ)) (f : ParticleField) : ParticleField :=
  ticks.foldl (fun g td => fieldTick step td.1 td.2 g) f

/-- The air-intake field configuration from the source: box
`[1.4, 0.55, 0.55]`, direction `[1, 0, 0]`, swirl `0.6` (speed taken at
`fluidFlow = 0`, so `airSpeed = 0.20`). -/
def airCfg : ParticleCfg := ⟨⟨1.4, 0.55, 0.55⟩, normalizeDir ⟨1, 0, 0⟩, 0.20, 0.6⟩

/-- The dispense field configuration from the source: box
`[0.30, 0.55, 0.30]`, direction `[0, -1, 0]`, swirl `0.0` (speed taken at
`fluidFlow = 0`, so `0.25 + waterSpeed * 0.35 = 0.3025`). -/
def dispenseCfg : ParticleCfg := ⟨⟨0.30, 0.55, 0.30⟩, normalizeDir ⟨0, -1, 0⟩, 0.3025, 0⟩

/-- A one-particle air-intake field used as a concrete sample. -/
def sampleField : ParticleField := ⟨stepAir, airCfg, [0], [⟨0, 0, 0⟩]⟩

end

end Awg

namespace Awg

/-- Claim C3: one smoothing step with a positive frame delta lands inside the
closed interval between the current value and the target; it never
overshoots. -/
theorem advance_no_overshoot (current target delta : ℝ) (h : 0 < delta) :
    SmoothedChannel.advance current target delta ∈
      Set.Icc (min current target) (max current target) := by
  have hp : 0 < smoothRate ^ delta :=
    Real.rpow_pos_of_pos (by norm_num [smoothRate]) delta
  have h1 : smoothRate ^ delta < 1 :=
    Real.rpow_lt_one (by norm_num [smoothRate]) (by norm_num [smoothRate]) h
  rw [Set.mem_Icc]
  unfold SmoothedChannel.advance
  rcases le_total current target with hc | hc
  · rw [min_eq_left hc, max_eq_right hc]
    constructor <;> nlinarith
  · rw [min_eq_right hc, max_eq_left hc]
    constructor <;> nlinarith

/-- Witness for C3 at current 0, target 1, delta 1. -/
theorem advance_no_overshoot_witness :
    SmoothedChannel.advance 0 1 1 ∈ Set.Icc (min (0:ℝ) 1) (max (0:ℝ) 1) :=
  advance_no_overshoot 0 1 1 (by norm_num)

/-- Claim C4: over real arithmetic, one smoothing step of size delta equals
two successive sub-steps of size delta / 2 toward the same fixed target: the
exponential approach is frame-rate independent. -/
theorem advance_framerate_independent (current target delta : ℝ) (h : 0 < delta) :
    SmoothedChannel.advance (SmoothedChannel.advance current target (delta / 2))
        target (delta / 2)
      = SmoothedChannel.advance current target delta := by
  have hpos : (0:ℝ) < smoothRate := by norm_num [smoothRate]
  have hr : smoothRate ^ (delta / 2) * smoothRate ^ (delta / 2)
      = smoothRate ^ delta := by
    rw [← Real.rpow_add hpos]
    norm_num
  unfold SmoothedChannel.advance
  linear_combination (-(target - current)) * hr

/-- Witness for C4 at current 0, target 1, delta 2. -/
theorem advance_framerate_independent_witness :
    SmoothedChannel.advance (SmoothedChannel.advance 0 1 (2 / 2)) 1 (2 / 2)
      = SmoothedChannel.advance 0 1 2 :=
  advance_framerate_independent 0 1 2 (by norm_num)

/-- Claim C9 (amended): a smoothing step with frame delta exactly 0 leaves the
current value unchanged, for every current value and target; the update is a
total function, so no error is ever raised. -/
theorem advance_zero_delta_noop (current target : ℝ) :
    SmoothedChannel.advance current target 0 = current := by
  simp [SmoothedChannel.advance, Real.rpow_zero]

/-- Counterexample to claim C9 as stated: with current 0, target 1 and a
negative frame delta of -1 the smoothing step is not a no-op — the code
applies `1 - 0.001 ^ (-1) = -999` and the value jumps to -999, away from the
target. -/
theorem advance_negative_delta_counterexample :
    SmoothedChannel.advance 0 1 (-1) ≠ 0 := by
  have h : smoothRate ^ (-1 : ℝ) = 1000 := by
    rw [show (-1:ℝ) = -(1:ℝ) by norm_num,
      Real.rpow_neg (by norm_num [smoothRate]), Real.rpow_one]
    norm_num [smoothRate]
  simp only [SmoothedChannel.advance, h]
  norm_num

/-- Claim C6: manual previous at index 0 stays at 0, manual next at the last
index stays at the last index, auto-advance at the last index wraps to 0, and
all three handlers keep any valid index inside `[0, stageCount)`. -/
theorem stage_navigation_clamps_and_wraps (i : ℤ) (h0 : 0 ≤ i) (h1 : i < stageCount) :
    prevManual 0 = 0 ∧
    nextManual (stageCount - 1) = stageCount - 1 ∧
    autoNext (stageCount - 1) = 0 ∧
    (0 ≤ prevManual i ∧ prevManual i < stageCount) ∧
    (0 ≤ nextManual i ∧ nextManual i < stageCount) ∧
    (0 ≤ autoNext i ∧ autoNext i < stageCount) := by
  simp only [prevManual, nextManual, autoNext, stageCount] at *
  omega

/-- Witness for C6 at index 2, the source's initial stage index. -/
theorem stage_navigation_witness :
    prevManual 0 = 0 ∧
    nextManual (stageCount - 1) = stageCount - 1 ∧
    autoNext (stageCount - 1) = 0 ∧
    (0 ≤ prevManual 2 ∧ prevManual 2 < stageCount) ∧
    (0 ≤ nextManual 2 ∧ nextManual 2 < stageCount) ∧
    (0 ≤ autoNext 2 ∧ autoNext 2 < stageCount) :=
  stage_navigation_clamps_and_wraps 2 (by norm_num) (by norm_num [stageCount])

/-- Claim C7: a jump request with an index outside `[0, stageCount)` is
rejected atomically — the returned index is the unchanged current index and
the out-of-range error is reported to the caller. -/
theorem jumpTo_out_of_range_rejected (cur i : ℤ) (h : i < 0 ∨ stageCount ≤ i) :
    jumpTo cur i = (cur, some JumpError.outOfRange) := by
  have hc : ¬(0 ≤ i ∧ i < stageCount) := by
    simp only [stageCount] at h ⊢
    omega
  simp [jumpTo, hc]

/-- Witness for C7: jumping to index 9 from index 2 is rejected. -/
theorem jumpTo_out_of_range_witness :
    jumpTo 2 9 = (2, some JumpError.outOfRange) :=
  jumpTo_out_of_range_rejected 2 9 (Or.inr (by norm_num [stageCount]))

/-- The per-axis wrap lands inside `[-half, half]` whenever `half` is
nonnegative. -/
theorem wrapAxis_mem (half c : ℝ) (h : 0 ≤ half) :
    -half ≤ wrapAxis half c ∧ wrapAxis half c ≤ half := by
  simp only [wrapAxis]
  split_ifs <;> constructor <;> linarith

/-- Claim C1: after one frame of an active field, with any nonnegative frame
delta, every particle position has each of its three coordinates inside
`[-half, half]` for that axis, the wrap being applied after both the
advection and the swirl updates. -/
theorem active_field_positions_in_box (f : ParticleField) (step : String)
    (t delta : ℝ) (hact : f.owner = step)
    (hx : 0 ≤ f.cfg.box.x) (hy : 0 ≤ f.cfg.box.y) (hz : 0 ≤ f.cfg.box.z)
    (hd : 0 ≤ delta) :
    ∀ p ∈ (fieldTick step t delta f).positions,
      (-(f.cfg.box.x / 2) ≤ p.x ∧ p.x ≤ f.cfg.box.x / 2) ∧
      (-(f.cfg.box.y / 2) ≤ p.y ∧ p.y ≤ f.cfg.box.y / 2) ∧
      (-(f.cfg.box.z / 2) ≤ p.z ∧ p.z ≤ f.cfg.box.z / 2) := by
  intro p hp
  rw [fieldTick, if_pos hact] at hp
  simp only [List.mem_map] at hp
  obtain ⟨pp, _, rfl⟩ := hp
  simp only [particleStep]
  exact ⟨wrapAxis_mem _ _ (div_nonneg hx (by norm_num)),
    wrapAxis_mem _ _ (div_nonneg hy (by norm_num)),
    wrapAxis_mem _ _ (div_nonneg hz (by norm_num))⟩

/-- Witness for C1: the single particle of the sample air field, stepped with
elapsed time 0 and frame delta 0.016, stays inside the box. -/
theorem active_field_positions_in_box_witness :
    (-(sampleField.cfg.box.x / 2) ≤ (particleStep sampleField.cfg 0 0 0.016 ⟨0, 0, 0⟩).x ∧
      (particleStep sampleField.cfg 0 0 0.016 ⟨0, 0, 0⟩).x ≤ sampleField.cfg.box.x / 2) ∧
    (-(sampleField.cfg.box.y / 2) ≤ (particleStep sampleField.cfg 0 0 0.016 ⟨0, 0, 0⟩).y ∧
      (particleStep sampleField.cfg 0 0 0.016 ⟨0, 0, 0⟩).y ≤ sampleField.cfg.box.y / 2) ∧
    (-(sampleField.cfg.box.z / 2) ≤ (particleStep sampleField.cfg 0 0 0.016 ⟨0, 0, 0⟩).z ∧
      (particleStep sampleField.cfg 0 0 0.016 ⟨0, 0, 0⟩).z ≤ sampleField.cfg.box.z / 2) :=
  active_field_positions_in_box sampleField stepAir 0 0.016 rfl
    (by norm_num [sampleField, airCfg]) (by norm_num [sampleField, airCfg])
    (by norm_num [sampleField, airCfg]) (by norm_num)
    (particleStep sampleField.cfg 0 0 0.016 ⟨0, 0, 0⟩)
    (by simp [fieldTick, sampleField])

/-- Claim C5: a field whose owner is not the current stage is left exactly
unchanged by any sequence of frames, so reactivation resumes from the frozen
state rather than resetting. -/
theorem inactive_field_frozen (f : ParticleField) (step : String)
    (ticks : List (ℝ × ℝ)) (h : f.owner ≠ step) :
    fieldTicks step ticks f = f := by
  induction ticks with
  | nil => rfl
  | cons td rest ih =>
      have h1 : fieldTick step td.1 td.2 f = f := by rw [fieldTick, if_neg h]
      calc fieldTicks step (td :: rest) f
          = fieldTicks step rest (fieldTick step td.1 td.2 f) := rfl
        _ = fieldTicks step rest f := by rw [h1]
        _ = f := ih

/-- Witness for C5: two frames with the filtration stage current leave the
sample air field untouched. -/
theorem inactive_field_frozen_witness :
    fieldTicks stepFiltration [(0, 0.016), (1, 0.016)] sampleField = sampleField :=
  inactive_field_frozen sampleField stepFiltration [(0, 0.016), (1, 0.016)] (by decide)

/-- Counterexample to claim C2 as stated: on the condensation stage with
condensation input 0.58 the condenser glow is not `0.25 + 0.58 * 0.9 = 0.772`
— the source multiplies the input by `0.85`, giving `0.743`. -/
theorem condenser_glow_coefficient_counterexample :
    coilGlow stepCondensation 0.58 ≠ 0.25 + 0.58 * 0.9 := by
  rw [coilGlow, if_pos rfl]
  rw [show clamp01 (0.58:ℝ) = 0.58 by
    rw [clamp01, min_eq_right (by norm_num), max_eq_right (by norm_num)]]
  norm_num

/-- Claim C2 (amended): on the condensation stage the condenser glow equals
`0.25 + condensation * 0.85` (so `0.743` for input 0.58), assigned directly —
instantaneously, not smoothed — every frame; on any other stage it is the
idle value `0.08`, which lies inside `[0.05, 0.12]`. -/
theorem condenser_glow_target (step : String) (c : ℝ) (h0 : 0 ≤ c) (h1 : c ≤ 1) :
    (step = stepCondensation → coilGlow step c = 0.25 + c * 0.85) ∧
    (step ≠ stepCondensation →
      coilGlow step c = 0.08 ∧ (0.05:ℝ) ≤ 0.08 ∧ (0.08:ℝ) ≤ 0.12) := by
  have hcl : clamp01 c = c := by
    rw [clamp01, min_eq_right h1, max_eq_right h0]
  constructor
  · intro hs
    rw [coilGlow, if_pos hs, hcl]
  · intro hs
    rw [coilGlow, if_neg hs]
    norm_num

/-- Witness for C2 at condensation input 0.58, on the condensation stage and
on the air stage. -/
theorem condenser_glow_target_witness :
    coilGlow stepCondensation 0.58 = 0.25 + 0.58 * 0.85 ∧
    coilGlow stepAir 0.58 = 0.08 :=
  ⟨(condenser_glow_target stepCondensation 0.58 (by norm_num) (by norm_num)).1 rfl,
    ((condenser_glow_target stepAir 0.58 (by norm_num) (by norm_num)).2 (by decide)).1⟩

/-- Claim C8: for any flow in `[0, 1]` the intake-fan rotation rate is the
base angular rate `1.2 + flow * 10` times `1.0` on the air-intake stage and
times the idle fraction `0.20` (inside `[0.15, 0.25]`) otherwise; the
multiplier is never zero, the rate is strictly positive, and at flow `0.62`
on the air stage the rate is `7.4`. -/
theorem fan_rotation_rate (step : String) (flow : ℝ) (h0 : 0 ≤ flow) (h1 : flow ≤ 1) :
    fanRate step flow = (1.2 + flow * 10.0) * fanMult step ∧
    (step = stepAir → fanMult step = 1.0) ∧
    (step ≠ stepAir → fanMult step = 0.20 ∧ (0.15:ℝ) ≤ 0.20 ∧ (0.20:ℝ) ≤ 0.25) ∧
    fanMult step ≠ 0 ∧
    0 < fanRate step flow ∧
    fanRate stepAir 0.62 = 7.4 := by
  have hcl : clamp01 flow = flow := by
    rw [clamp01, min_eq_right h1, max_eq_right h0]
  have hmult : fanMult step = 1.0 ∨ fanMult step = 0.20 := by
    rw [fanMult]
    split_ifs <;> simp
  have hbase : fanRate step flow = (1.2 + flow * 10.0) * fanMult step := by
    rw [fanRate, fanBase, hcl]
  refine ⟨hbase, fun hs => by rw [fanMult, if_pos hs], fun hs => ⟨by rw [fanMult, if_neg hs], by norm_num, by norm_num⟩, ?_, ?_, ?_⟩
  · rcases hmult with hm | hm <;> rw [hm] <;> norm_num
  · rw [hbase]
    rcases hmult with hm | hm <;> rw [hm] <;> nlinarith
  · rw [fanRate, fanBase, fanMult, if_pos rfl,
      show clamp01 (0.62:ℝ) = 0.62 by
        rw [clamp01, min_eq_right (by norm_num), max_eq_right (by norm_num)]]
    norm_num

/-- Witness for C8 at the air stage with flow 0.62. -/
theorem fan_rotation_rate_witness :
    fanRate stepAir 0.62 = (1.2 + 0.62 * 10.0) * fanMult stepAir ∧
    (stepAir = stepAir → fanMult stepAir = 1.0) ∧
    (stepAir ≠ stepAir → fanMult stepAir = 0.20 ∧ (0.15:ℝ) ≤ 0.20 ∧ (0.20:ℝ) ≤ 0.25) ∧
    fanMult stepAir ≠ 0 ∧
    0 < fanRate stepAir 0.62 ∧
    fanRate stepAir 0.62 = 7.4 :=
  fan_rotation_rate stepAir 0.62 (by norm_num) (by norm_num)

/-- Claim C10: the swirl displacement is not scaled by the frame delta — there
is a configuration with positive swirl, an elapsed time, a phase and a
position that a frame with delta 0 still moves — while the advection-only
dispense field (swirl 0) leaves an interior position fixed when delta is 0. -/
theorem swirl_independent_of_delta :
    (∃ (cfg : ParticleCfg) (phase t : ℝ) (pos : Vec3),
        0 < cfg.swirl ∧ particleStep cfg phase t 0 pos ≠ pos) ∧
    particleStep dispenseCfg 0 5 0 ⟨0, 0, 0⟩ = ⟨0, 0, 0⟩ := by
  constructor
  · refine ⟨airCfg, Real.pi / 2, 0, ⟨0, 0, 0⟩, by norm_num [airCfg], fun hcontra => ?_⟩
    have hy := congrArg Vec3.y hcontra
    simp only [particleStep, swirlOffset, airCfg] at hy
    norm_num [Real.sin_pi_div_two, wrapAxis] at hy
  · simp only [particleStep, swirlOffset, dispenseCfg]
    norm_num [wrapAxis]

end Awg
